import Mathlib

/-!
Shallow embedding of the BudgetBattleCity game (src/src/main.rs), a small
top-down tank game built on Bevy.  Geometry is modelled with exact rationals
in place of `f32`; entity collections are Lean lists in the source's
iteration order; Bevy `Commands` become explicit despawn-command lists or
state transformations.  Each claim about the natural-language specification
is settled by a theorem over these definitions.
-/

namespace BattleCity

/-- 2D vector (`bevy::Vec2`), with exact rational coordinates. -/
structure Vec2 where
  x : ℚ
  y : ℚ
deriving DecidableEq, Repr

/-- Scale by `0.5`, as the source writes `v * 0.5` to get half-extents. -/
def Vec2.half (v : Vec2) : Vec2 :=
  ⟨v.x * (1 / 2), v.y * (1 / 2)⟩

/-- `ARENA_W` (main.rs:5). -/
def ARENA_W : ℚ := 800
/-- `ARENA_H` (main.rs:6). -/
def ARENA_H : ℚ := 600
/-- `TILE` (main.rs:7). -/
def TILE : ℚ := 40
/-- `PLAYER_SIZE` (main.rs:11). -/
def PLAYER_SIZE : Vec2 := ⟨32, 32⟩
/-- `BULLET_SIZE` (main.rs:15). -/
def BULLET_SIZE : Vec2 := ⟨6, 12⟩
/-- `ENEMY_SIZE` (main.rs:19). -/
def ENEMY_SIZE : Vec2 := ⟨28, 28⟩
/-- `ENEMY_CAP` (main.rs:20). -/
def ENEMY_CAP : ℕ := 24

/-- A wall entity: `Transform` translation and `Size` component
(spawned in `build_maze`, main.rs:192-203). -/
structure WallEnt where
  pos : Vec2
  size : Vec2
deriving DecidableEq, Repr

/-- `aabb_overlap` (main.rs:478-481): inclusive AABB test on centers and
half-extents, conjunction of per-axis comparisons. -/
def aabb_overlap (a_pos a_half b_pos b_half : Vec2) : Bool :=
  decide (|a_pos.x - b_pos.x| ≤ a_half.x + b_half.x) &&
  decide (|a_pos.y - b_pos.y| ≤ a_half.y + b_half.y)

/-- `overlaps_any` (main.rs:483-490): does the AABB at `pos` with
half-extent `half` overlap any wall?  Walls contribute `size * 0.5` as
half-extent, exactly as in the source loop. -/
def overlaps_any (pos half : Vec2) (walls : List WallEnt) : Bool :=
  walls.any (fun w => aabb_overlap pos half w.pos (Vec2.half w.size))

/-- `Axis` (main.rs:492). -/
inductive Axis where
  | X
  | Y
deriving DecidableEq, Repr

/-- Advance a position by `d` along the given axis (the `match axis` blocks
inside `sweep_axis`, main.rs:507-515). -/
def Axis.advance : Axis → Vec2 → ℚ → Vec2
  | Axis.X, pos, d => ⟨pos.x + d, pos.y⟩
  | Axis.Y, pos, d => ⟨pos.x, pos.y + d⟩

/-- The `for _ in 0..steps` loop of `sweep_axis` (main.rs:506-520) with `n`
iterations left, returning the remaining movement: each iteration advances
one sub-step, reverts and stops on overlap, otherwise accumulates the step.
The Rust loop carries a `moved` accumulator; this recursion returns the
movement contributed from the current iteration on, which sums to the same
total. -/
def sweepLoop (half : Vec2) (step : ℚ) (axis : Axis) (walls : List WallEnt) :
    ℕ → Vec2 → ℚ
  | 0, _ => 0
  | n + 1, pos =>
    if overlaps_any (Axis.advance axis pos step) half walls then 0
    else step + sweepLoop half step axis walls n (Axis.advance axis pos step)

/-- Number of sub-steps the sweep loop accepts before stopping (proof
companion to `sweepLoop`). -/
def sweepCount (half : Vec2) (step : ℚ) (axis : Axis) (walls : List WallEnt) :
    ℕ → Vec2 → ℕ
  | 0, _ => 0
  | n + 1, pos =>
    if overlaps_any (Axis.advance axis pos step) half walls then 0
    else 1 + sweepCount half step axis walls n (Axis.advance axis pos step)

/-- `sweep_axis` (main.rs:494-522): early-return `0` on zero delta, else run
the 6-iteration sub-step loop with step `delta / 6`. -/
def sweep_axis (pos half : Vec2) (delta : ℚ) (axis : Axis)
    (walls : List WallEnt) : ℚ :=
  if delta = 0 then 0
  else sweepLoop half (delta / 6) axis walls 6 pos

/-- The X-axis phase of `move_with_collisions` (main.rs:352-357): add the
delta; on wall overlap revert and use the swept partial movement from the
original position. -/
def moveAxisX (pos half : Vec2) (dx : ℚ) (walls : List WallEnt) : Vec2 :=
  if overlaps_any ⟨pos.x + dx, pos.y⟩ half walls then
    ⟨pos.x + sweep_axis pos half dx Axis.X walls, pos.y⟩
  else
    ⟨pos.x + dx, pos.y⟩

/-- The Y-axis phase of `move_with_collisions` (main.rs:359-364). -/
def moveAxisY (pos half : Vec2) (dy : ℚ) (walls : List WallEnt) : Vec2 :=
  if overlaps_any ⟨pos.x, pos.y + dy⟩ half walls then
    ⟨pos.x, pos.y + sweep_axis pos half dy Axis.Y walls⟩
  else
    ⟨pos.x, pos.y + dy⟩

/-- `move_with_collisions` body for one non-wall mover (main.rs:341-369):
half-extent is `size * 0.5`, X axis resolved first, then Y. -/
def move_with_collisions (pos size v : Vec2) (dt : ℚ)
    (walls : List WallEnt) : Vec2 :=
  moveAxisY (moveAxisX pos (Vec2.half size) (v.x * dt) walls)
    (Vec2.half size) (v.y * dt) walls

lemma advance_add (axis : Axis) (pos : Vec2) (a b : ℚ) :
    Axis.advance axis (Axis.advance axis pos a) b =
      Axis.advance axis pos (a + b) := by
  cases axis <;> simp [Axis.advance, add_assoc]

lemma sweepLoop_eq_count (half : Vec2) (step : ℚ) (axis : Axis)
    (walls : List WallEnt) :
    ∀ (n : ℕ) (pos : Vec2),
      sweepLoop half step axis walls n pos =
        (sweepCount half step axis walls n pos : ℚ) * step := by
  intro n
  induction n with
  | zero =>
    intro pos
    simp [sweepLoop, sweepCount]
  | succ n ih =>
    intro pos
    by_cases h : overlaps_any (Axis.advance axis pos step) half walls = true
    · simp [sweepLoop, sweepCount, h]
    · simp only [sweepLoop, sweepCount, h]
      simp only [if_neg h, ih]
      push_cast
      ring

lemma sweepCount_le (half : Vec2) (step : ℚ) (axis : Axis)
    (walls : List WallEnt) :
    ∀ (n : ℕ) (pos : Vec2), sweepCount half step axis walls n pos ≤ n := by
  intro n
  induction n with
  | zero => intro pos; simp [sweepCount]
  | succ n ih =>
    intro pos
    by_cases h : overlaps_any (Axis.advance axis pos step) half walls = true
    · simp [sweepCount, h]
    · simp only [sweepCount, if_neg h]
      have := ih (Axis.advance axis pos step)
      omega

lemma sweepCount_safe (half : Vec2) (step : ℚ) (axis : Axis)
    (walls : List WallEnt) :
    ∀ (n : ℕ) (pos : Vec2) (i : ℕ), 1 ≤ i →
      i ≤ sweepCount half step axis walls n pos →
      overlaps_any (Axis.advance axis pos ((i : ℚ) * step)) half walls
        = false := by
  intro n
  induction n with
  | zero =>
    intro pos i h1 h2
    simp [sweepCount] at h2
    omega
  | succ n ih =>
    intro pos i h1 h2
    by_cases h : overlaps_any (Axis.advance axis pos step) half walls = true
    · simp [sweepCount, h] at h2
      omega
    · simp only [sweepCount, if_neg h] at h2
      rcases Nat.lt_or_ge i 2 with hi | hi
      · have hone : i = 1 := by omega
        subst hone
        simpa using Bool.eq_false_iff.mpr h
      · obtain ⟨j, rfl⟩ : ∃ j, i = j + 1 := ⟨i - 1, by omega⟩
        have hj1 : 1 ≤ j := by omega
        have hj2 : j ≤ sweepCount half step axis walls n
            (Axis.advance axis pos step) := by omega
        have := ih (Axis.advance axis pos step) j hj1 hj2
        rw [advance_add] at this
        have harith : step + (j : ℚ) * step = ((j : ℚ) + 1) * step := by ring
        rw [harith] at this
        simpa using this

lemma sweepCount_stop (half : Vec2) (step : ℚ) (axis : Axis)
    (walls : List WallEnt) :
    ∀ (n : ℕ) (pos : Vec2), sweepCount half step axis walls n pos < n →
      overlaps_any
        (Axis.advance axis pos
          (((sweepCount half step axis walls n pos : ℚ) + 1) * step))
        half walls = true := by
  intro n
  induction n with
  | zero =>
    intro pos h
    omega
  | succ n ih =>
    intro pos h
    by_cases hov : overlaps_any (Axis.advance axis pos step) half walls = true
    · simp only [sweepCount, if_pos hov]
      simpa using hov
    · simp only [sweepCount, if_neg hov] at h ⊢
      have hlt : sweepCount half step axis walls n
          (Axis.advance axis pos step) < n := by omega
      have := ih (Axis.advance axis pos step) hlt
      rw [advance_add] at this
      have harith :
          step + ((sweepCount half step axis walls n
              (Axis.advance axis pos step) : ℚ) + 1) * step =
            (((1 + sweepCount half step axis walls n
                (Axis.advance axis pos step) : ℕ) : ℚ) + 1) * step := by
        push_cast
        ring
      rw [harith] at this
      exact this

/-- Claim C1: the collision pass moves each non-wall mover axis-separated,
X then Y; on each axis it adds `velocity * deltaTime`, and if the result
overlaps a wall it reverts and instead advances in 6 equal sub-steps of the
attempted delta, stopping before the first overlapping sub-step, the final
axis position being the start plus the sum of the accepted sub-steps. -/
theorem claim_C1 (walls : List WallEnt) (pos size v : Vec2) (dt : ℚ) :
    move_with_collisions pos size v dt walls =
      moveAxisY (moveAxisX pos (Vec2.half size) (v.x * dt) walls)
        (Vec2.half size) (v.y * dt) walls ∧
    (moveAxisX pos (Vec2.half size) (v.x * dt) walls).y = pos.y ∧
    (moveAxisY (moveAxisX pos (Vec2.half size) (v.x * dt) walls)
        (Vec2.half size) (v.y * dt) walls).x =
      (moveAxisX pos (Vec2.half size) (v.x * dt) walls).x ∧
    (∀ (p half : Vec2) (dx : ℚ),
      overlaps_any ⟨p.x + dx, p.y⟩ half walls = false →
        moveAxisX p half dx walls = ⟨p.x + dx, p.y⟩) ∧
    (∀ (p half : Vec2) (dx : ℚ),
      overlaps_any ⟨p.x + dx, p.y⟩ half walls = true → dx ≠ 0 →
        ∃ c : ℕ, c ≤ 6 ∧
          (moveAxisX p half dx walls).x = p.x + (c : ℚ) * (dx / 6) ∧
          (∀ i : ℕ, 1 ≤ i → i ≤ c →
            overlaps_any ⟨p.x + (i : ℚ) * (dx / 6), p.y⟩ half walls
              = false) ∧
          (c < 6 →
            overlaps_any ⟨p.x + ((c : ℚ) + 1) * (dx / 6), p.y⟩ half walls
              = true)) ∧
    (∀ (p half : Vec2) (dy : ℚ),
      overlaps_any ⟨p.x, p.y + dy⟩ half walls = false →
        moveAxisY p half dy walls = ⟨p.x, p.y + dy⟩) ∧
    (∀ (p half : Vec2) (dy : ℚ),
      overlaps_any ⟨p.x, p.y + dy⟩ half walls = true → dy ≠ 0 →
        ∃ c : ℕ, c ≤ 6 ∧
          (moveAxisY p half dy walls).y = p.y + (c : ℚ) * (dy / 6) ∧
          (∀ i : ℕ, 1 ≤ i → i ≤ c →
            overlaps_any ⟨p.x, p.y + (i : ℚ) * (dy / 6)⟩ half walls
              = false) ∧
          (c < 6 →
            overlaps_any ⟨p.x, p.y + ((c : ℚ) + 1) * (dy / 6)⟩ half walls
              = true)) := by
  refine ⟨rfl, ?_, ?_, ?_, ?_, ?_, ?_⟩
  · unfold moveAxisX
    split <;> rfl
  · unfold moveAxisY
    split <;> rfl
  · intro p half dx hno
    unfold moveAxisX
    rw [if_neg (by simp [hno])]
  · intro p half dx hov hdx
    refine ⟨sweepCount half (dx / 6) Axis.X walls 6 p,
      sweepCount_le half (dx / 6) Axis.X walls 6 p, ?_, ?_, ?_⟩
    · unfold moveAxisX
      rw [if_pos (by simp [hov])]
      unfold sweep_axis
      rw [if_neg hdx, sweepLoop_eq_count]
    · intro i h1 h2
      have := sweepCount_safe half (dx / 6) Axis.X walls 6 p i h1 h2
      simpa [Axis.advance] using this
    · intro hc
      have := sweepCount_stop half (dx / 6) Axis.X walls 6 p
        (by exact_mod_cast hc)
      simpa [Axis.advance] using this
  · intro p half dy hno
    unfold moveAxisY
    rw [if_neg (by simp [hno])]
  · intro p half dy hov hdy
    refine ⟨sweepCount half (dy / 6) Axis.Y walls 6 p,
      sweepCount_le half (dy / 6) Axis.Y walls 6 p, ?_, ?_, ?_⟩
    · unfold moveAxisY
      rw [if_pos (by simp [hov])]
      unfold sweep_axis
      rw [if_neg hdy, sweepLoop_eq_count]
    · intro i h1 h2
      have := sweepCount_safe half (dy / 6) Axis.Y walls 6 p i h1 h2
      simpa [Axis.advance] using this
    · intro hc
      have := sweepCount_stop half (dy / 6) Axis.Y walls 6 p
        (by exact_mod_cast hc)
      simpa [Axis.advance] using this

/-- Witness for C1: a mover approaching the central wall tile from the left
moves freely when the full step stays clear, and is swept sub-stepwise when
the full step would overlap. -/
theorem claim_C1_witness :
    (moveAxisX ⟨-200, 0⟩ (Vec2.half PLAYER_SIZE) 30
        [⟨⟨0, 0⟩, ⟨40, 40⟩⟩]).x = -170 ∧
    ∃ c : ℕ, c ≤ 6 ∧
      (moveAxisX ⟨-60, 0⟩ (Vec2.half PLAYER_SIZE) 30
          [⟨⟨0, 0⟩, ⟨40, 40⟩⟩]).x = -60 + (c : ℚ) * (30 / 6) := by
  constructor
  · have h := (claim_C1 [⟨⟨0, 0⟩, ⟨40, 40⟩⟩] ⟨-200, 0⟩ PLAYER_SIZE
        ⟨300, 0⟩ (1 / 10)).2.2.2.1
      ⟨-200, 0⟩ (Vec2.half PLAYER_SIZE) 30
      (by norm_num [overlaps_any, aabb_overlap, Vec2.half, PLAYER_SIZE])
    rw [h]
    show (-200 + 30 : ℚ) = -170
    norm_num
  · obtain ⟨c, hc, heq, -, -⟩ :=
      (claim_C1 [⟨⟨0, 0⟩, ⟨40, 40⟩⟩] ⟨-60, 0⟩ PLAYER_SIZE
          ⟨300, 0⟩ (1 / 10)).2.2.2.2.1
        ⟨-60, 0⟩ (Vec2.half PLAYER_SIZE) 30
        (by norm_num [overlaps_any, aabb_overlap, Vec2.half, PLAYER_SIZE])
        (by norm_num)
    exact ⟨c, hc, heq⟩

/-- Spec-side overlap predicate, following the specification's words: two
rectangles overlap iff on each axis the absolute difference of centers is at
most the sum of the half-extents (inclusive boundary). -/
def overlapSpec (a_pos a_half b_pos b_half : Vec2) : Prop :=
  |a_pos.x - b_pos.x| ≤ a_half.x + b_half.x ∧
  |a_pos.y - b_pos.y| ≤ a_half.y + b_half.y

/-- Claim C2: the AABB overlap predicate is inclusive: it reports overlap if
and only if on both axes the absolute difference of centers is less than or
equal to the sum of half-extents, so exact touching counts as overlapping. -/
theorem claim_C2 (a_pos a_half b_pos b_half : Vec2) :
    aabb_overlap a_pos a_half b_pos b_half = true ↔
      overlapSpec a_pos a_half b_pos b_half := by
  simp [aabb_overlap, overlapSpec]

/-- `Faction` (main.rs:32-36). -/
inductive Faction where
  | Player
  | Enemy
deriving DecidableEq, Repr

/-- A bullet entity: entity id, `Transform` translation, `Size`, `Velocity`
and `Faction` components. -/
structure BulletEnt where
  id : ℕ
  pos : Vec2
  size : Vec2
  vel : Vec2
  faction : Faction
deriving DecidableEq, Repr

/-- An enemy entity: entity id, `Transform` translation and `Size`. -/
structure EnemyEnt where
  id : ℕ
  pos : Vec2
  size : Vec2
deriving DecidableEq, Repr

/-- The player entity: `Transform` translation and `Size`. -/
structure PlayerEnt where
  pos : Vec2
  size : Vec2
deriving DecidableEq, Repr

/-- A deferred `Commands` despawn, as issued by `bullet_hits`. -/
inductive Cmd where
  | despawnBullet (id : ℕ)
  | despawnEnemy (id : ℕ)
deriving DecidableEq, Repr

/-- The inner `for (e_e, e_t, e_s) in &q_enemies` loop of `bullet_hits`
(main.rs:416-421): the first enemy in query iteration order whose AABB
overlaps the bullet's, if any (the loop `break`s after the first hit). -/
def firstOverlapEnemy (b_pos b_half : Vec2) : List EnemyEnt → Option EnemyEnt
  | [] => none
  | e :: rest =>
    if aabb_overlap b_pos b_half e.pos (Vec2.half e.size) then some e
    else firstOverlapEnemy b_pos b_half rest

/-- One iteration of the outer bullet loop of `bullet_hits` (main.rs:410-433):
the despawn commands issued for this bullet, and the number of
`RestartEvent`s sent. -/
def bulletHitsOne (b : BulletEnt) (enemies : List EnemyEnt)
    (player : Option PlayerEnt) : List Cmd × ℕ :=
  match b.faction with
  | Faction.Player =>
    match firstOverlapEnemy b.pos (Vec2.half b.size) enemies with
    | some e => ([Cmd.despawnBullet b.id, Cmd.despawnEnemy e.id], 0)
    | none => ([], 0)
  | Faction.Enemy =>
    match player with
    | some p =>
      if aabb_overlap b.pos (Vec2.half b.size) p.pos (Vec2.half p.size) then
        ([Cmd.despawnBullet b.id], 1)
      else ([], 0)
    | none => ([], 0)

/-- `bullet_hits` (main.rs:403-434): process every bullet in query order,
concatenating the issued despawn commands and counting sent restarts.
Despawns are deferred `Commands`, so later bullets still see the full
enemy/player queries. -/
def bullet_hits (bullets : List BulletEnt) (enemies : List EnemyEnt)
    (player : Option PlayerEnt) : List Cmd × ℕ :=
  bullets.foldl
    (fun acc b =>
      ((acc.1 ++ (bulletHitsOne b enemies player).1,
        acc.2 + (bulletHitsOne b enemies player).2)))
    ([], 0)

lemma firstOverlapEnemy_eq_none (b_pos b_half : Vec2) :
    ∀ enemies : List EnemyEnt,
      (∀ e ∈ enemies,
        aabb_overlap b_pos b_half e.pos (Vec2.half e.size) = false) →
      firstOverlapEnemy b_pos b_half enemies = none := by
  intro enemies
  induction enemies with
  | nil => intro _; rfl
  | cons e rest ih =>
    intro h
    have he := h e (List.mem_cons_self e rest)
    simp only [firstOverlapEnemy, he]
    exact ih (fun e' h' => h e' (List.mem_cons_of_mem e h'))

lemma firstOverlapEnemy_eq_some (b_pos b_half : Vec2) :
    ∀ enemies : List EnemyEnt,
      (∃ e ∈ enemies,
        aabb_overlap b_pos b_half e.pos (Vec2.half e.size) = true) →
      ∃ pre e post, enemies = pre ++ e :: post ∧
        aabb_overlap b_pos b_half e.pos (Vec2.half e.size) = true ∧
        (∀ e' ∈ pre,
          aabb_overlap b_pos b_half e'.pos (Vec2.half e'.size) = false) ∧
        firstOverlapEnemy b_pos b_half enemies = some e := by
  intro enemies
  induction enemies with
  | nil => intro h; simp at h
  | cons e rest ih =>
    intro h
    by_cases he : aabb_overlap b_pos b_half e.pos (Vec2.half e.size) = true
    · refine ⟨[], e, rest, by simp, he, by simp, ?_⟩
      simp [firstOverlapEnemy, he]
    · have hrest : ∃ e' ∈ rest,
          aabb_overlap b_pos b_half e'.pos (Vec2.half e'.size) = true := by
        rcases h with ⟨e', hmem, hov⟩
        rcases List.mem_cons.mp hmem with rfl | hmem'
        · exact absurd hov he
        · exact ⟨e', hmem', hov⟩
      obtain ⟨pre, e', post, hsplit, hov, hpre, hfind⟩ := ih hrest
      refine ⟨e :: pre, e', post, by simp [hsplit], hov, ?_, ?_⟩
      · intro e'' hmem
        rcases List.mem_cons.mp hmem with rfl | hmem'
        · exact Bool.eq_false_iff.mpr he
        · exact hpre e'' hmem'
      · simp only [firstOverlapEnemy, if_neg he]
        exact hfind

/-- Claim C3: in the combat pass, every player-faction bullet overlapping at
least one enemy despawns itself and exactly the first overlapping enemy in
iteration order (never more than one enemy per bullet per frame), and a
player-faction bullet overlapping no enemy despawns nothing. -/
theorem claim_C3 (b : BulletEnt) (enemies : List EnemyEnt)
    (player : Option PlayerEnt) (hfac : b.faction = Faction.Player) :
    ((∃ e ∈ enemies,
        aabb_overlap b.pos (Vec2.half b.size) e.pos (Vec2.half e.size)
          = true) →
      ∃ pre e post, enemies = pre ++ e :: post ∧
        aabb_overlap b.pos (Vec2.half b.size) e.pos (Vec2.half e.size)
          = true ∧
        (∀ e' ∈ pre,
          aabb_overlap b.pos (Vec2.half b.size) e'.pos (Vec2.half e'.size)
            = false) ∧
        bulletHitsOne b enemies player
          = ([Cmd.despawnBullet b.id, Cmd.despawnEnemy e.id], 0)) ∧
    ((∀ e ∈ enemies,
        aabb_overlap b.pos (Vec2.half b.size) e.pos (Vec2.half e.size)
          = false) →
      bulletHitsOne b enemies player = ([], 0)) := by
  constructor
  · intro h
    obtain ⟨pre, e, post, hsplit, hov, hpre, hfind⟩ :=
      firstOverlapEnemy_eq_some b.pos (Vec2.half b.size) enemies h
    refine ⟨pre, e, post, hsplit, hov, hpre, ?_⟩
    simp [bulletHitsOne, hfac, hfind]
  · intro h
    have := firstOverlapEnemy_eq_none b.pos (Vec2.half b.size) enemies h
    simp [bulletHitsOne, hfac, this]

/-- Witness for C3: a player bullet sitting on two overlapping enemies kills
only the first one in iteration order, together with itself. -/
theorem claim_C3_witness :
    bulletHitsOne ⟨7, ⟨0, 0⟩, BULLET_SIZE, ⟨0, 0⟩, Faction.Player⟩
        [⟨1, ⟨5, 0⟩, ENEMY_SIZE⟩, ⟨2, ⟨-5, 0⟩, ENEMY_SIZE⟩] none
      = ([Cmd.despawnBullet 7, Cmd.despawnEnemy 1], 0) := by
  obtain ⟨pre, e, post, hsplit, hov, hpre, heq⟩ :=
    (claim_C3 ⟨7, ⟨0, 0⟩, BULLET_SIZE, ⟨0, 0⟩, Faction.Player⟩
        [⟨1, ⟨5, 0⟩, ENEMY_SIZE⟩, ⟨2, ⟨-5, 0⟩, ENEMY_SIZE⟩] none rfl).1
      ⟨⟨1, ⟨5, 0⟩, ENEMY_SIZE⟩, by simp,
        by norm_num [aabb_overlap, Vec2.half, BULLET_SIZE, ENEMY_SIZE]⟩
  have hfirst : e = ⟨1, ⟨5, 0⟩, ENEMY_SIZE⟩ := by
    rcases pre with _ | ⟨p0, pre'⟩
    · exact (by simpa using hsplit.symm :
        e = (⟨1, ⟨5, 0⟩, ENEMY_SIZE⟩ : EnemyEnt) ∧ _).1
    · exfalso
      have hp0 : p0 = ⟨1, ⟨5, 0⟩, ENEMY_SIZE⟩ := by
        have := congrArg (fun l => l.headD ⟨0, ⟨0, 0⟩, ⟨0, 0⟩⟩) hsplit
        simpa using this.symm

      have := hpre p0 (List.mem_cons_self p0 pre')
      rw [hp0] at this
      have hov0 : aabb_overlap (⟨0, 0⟩ : Vec2)
          (Vec2.half BULLET_SIZE) (⟨5, 0⟩ : Vec2) (Vec2.half ENEMY_SIZE)
            = true := by
        norm_num [aabb_overlap, Vec2.half, BULLET_SIZE, ENEMY_SIZE]
      rw [hov0] at this
      exact Bool.true_eq_false.mp this
  rw [heq, hfirst]

/-- The `MAZE` constant (main.rs:106-122): 15 rows of 20 characters. -/
def MAZE : List String :=
  ["####################",
   "#P             #  S#",
   "### #### ####### ###",
   "#   #   #     #   ##",
   "# ### # # ### ###  #",
   "# #   #   # #     S#",
   "#         # # ######",
   "# #     #   #     ##",
   "# ##### ###     #  #",
   "#     #     #   #  #",
   "### # ### # ### ####",
   "# S #   # #   #    #",
   "### ### # ### # ####",
   "#      S#     #   S#",
   "####################"]

/-- The grid origin: world position of the top-left tile center
(main.rs:184). -/
def origin : Vec2 :=
  ⟨-ARENA_W * (1 / 2) + TILE * (1 / 2), ARENA_H * (1 / 2) - TILE * (1 / 2)⟩

/-- World-space center of the tile at row `r`, column `c`
(main.rs:188-189). -/
def tileCenter (r c : ℕ) : Vec2 :=
  ⟨origin.x + (c : ℚ) * TILE, origin.y - (r : ℚ) * TILE⟩

/-- The maze-build output: spawned wall entities (in spawn order), the
`SpawnPoints` list, and the `PlayerStart` value. -/
structure MazeBuild where
  walls : List WallEnt
  spawnPoints : List Vec2
  playerStart : Vec2
deriving DecidableEq, Repr

/-- The fallback player start (main.rs:182): `Vec2::new(0.0, -ARENA_H * 0.35)`. -/
def fallbackStart : Vec2 := ⟨0, -ARENA_H * (35 / 100)⟩

/-- The `match ch` cell action in `build_maze` (main.rs:191-207): a `'#'`
spawns a wall of size `TILE × TILE` at the tile center, an `'S'` appends a
spawn point, a `'P'` overwrites the player start, anything else is floor. -/
def scanCell (r c : ℕ) (ch : Char) (acc : MazeBuild) : MazeBuild :=
  if ch = '#' then
    { acc with walls := acc.walls ++ [⟨tileCenter r c, ⟨TILE, TILE⟩⟩] }
  else if ch = 'S' then
    { acc with spawnPoints := acc.spawnPoints ++ [tileCenter r c] }
  else if ch = 'P' then
    { acc with playerStart := tileCenter r c }
  else acc

/-- The inner `for (c, ch) in line.chars().enumerate()` loop of
`build_maze` (main.rs:187), starting at column `c`. -/
def scanRowFrom (r : ℕ) : ℕ → List Char → MazeBuild → MazeBuild
  | _, [], acc => acc
  | c, ch :: rest, acc => scanRowFrom r (c + 1) rest (scanCell r c ch acc)

/-- The outer `for (r, line) in MAZE.iter().enumerate()` loop of
`build_maze` (main.rs:186), starting at row `r`. -/
def scanRowsFrom : ℕ → List (List Char) → MazeBuild → MazeBuild
  | _, [], acc => acc
  | r, line :: rest, acc => scanRowsFrom (r + 1) rest (scanRowFrom r 0 line acc)

/-- `build_maze` (main.rs:169-213): the row-width `assert!` becomes the
error case; on success the grid is scanned row-major starting from empty
accumulators and the fallback player start. -/
def build_maze (maze : List String) : Except String MazeBuild :=
  if maze.all (fun row => row.length == (maze.headD "").length) then
    Except.ok (scanRowsFrom 0 (maze.map String.toList)
      { walls := [], spawnPoints := [], playerStart := fallbackStart })
  else
    Except.error "MAZE row width mismatch"

/-- Cells of one row in scan order, with row/column indices, starting at
column `c` (spec-side enumeration). -/
def cellsFrom (r : ℕ) : ℕ → List Char → List (ℕ × ℕ × Char)
  | _, [] => []
  | c, ch :: rest => (r, c, ch) :: cellsFrom r (c + 1) rest

/-- Cells of the whole grid in row-major scan order starting at row `r`
(spec-side enumeration). -/
def rowsCellsFrom : ℕ → List (List Char) → List (ℕ × ℕ × Char)
  | _, [] => []
  | r, line :: rest => cellsFrom r 0 line ++ rowsCellsFrom (r + 1) rest

/-- All cells of a maze in row-major scan order (spec-side enumeration). -/
def gridCells (maze : List String) : List (ℕ × ℕ × Char) :=
  rowsCellsFrom 0 (maze.map String.toList)

/-- Row/column indices of the `'#'` cells, in scan order. -/
def wallCells (cells : List (ℕ × ℕ × Char)) : List (ℕ × ℕ) :=
  cells.filterMap (fun t => if t.2.2 = '#' then some (t.1, t.2.1) else none)

/-- Row/column indices of the `'S'` cells, in scan order. -/
def spawnCells (cells : List (ℕ × ℕ × Char)) : List (ℕ × ℕ) :=
  cells.filterMap (fun t => if t.2.2 = 'S' then some (t.1, t.2.1) else none)

/-- Row/column indices of the `'P'` cells, in scan order. -/
def startCells (cells : List (ℕ × ℕ × Char)) : List (ℕ × ℕ) :=
  cells.filterMap (fun t => if t.2.2 = 'P' then some (t.1, t.2.1) else none)

/-- Number of `'#'` cells in the maze. -/
def wallCellCount (maze : List String) : ℕ :=
  ((gridCells maze).filter (fun t => t.2.2 == '#')).length

/-- Last element of a list, or a default: models the repeated overwriting
of `player_start` by later `'P'` cells ("last wins"). -/
def lastStart {α : Type} : List α → α → α
  | [], d => d
  | a :: rest, _ => lastStart rest a

lemma lastStart_append {α : Type} (l1 l2 : List α) (d : α) :
    lastStart (l1 ++ l2) d = lastStart l2 (lastStart l1 d) := by
  induction l1 generalizing d with
  | nil => rfl
  | cons a l ih => rw [List.cons_append, lastStart, lastStart, ih]

lemma scanRowFrom_spec (r : ℕ) :
    ∀ (line : List Char) (c : ℕ) (acc : MazeBuild),
      scanRowFrom r c line acc =
        { walls := acc.walls ++ (wallCells (cellsFrom r c line)).map
            (fun rc => ⟨tileCenter rc.1 rc.2, ⟨TILE, TILE⟩⟩),
          spawnPoints := acc.spawnPoints ++
            (spawnCells (cellsFrom r c line)).map
              (fun rc => tileCenter rc.1 rc.2),
          playerStart := lastStart ((startCells (cellsFrom r c line)).map
            (fun rc => tileCenter rc.1 rc.2)) acc.playerStart } := by
  intro line
  induction line with
  | nil =>
    intro c acc
    simp [scanRowFrom, cellsFrom, wallCells, spawnCells, startCells,
      lastStart]
  | cons ch rest ih =>
    intro c acc
    simp only [scanRowFrom, cellsFrom]
    rw [ih]
    by_cases h1 : ch = '#'
    · subst h1
      simp [scanCell, wallCells, spawnCells, startCells,
        List.filterMap_cons]
    · by_cases h2 : ch = 'S'
      · subst h2
        simp [scanCell, wallCells, spawnCells, startCells,
          List.filterMap_cons]
      · by_cases h3 : ch = 'P'
        · subst h3
          simp only [scanCell, wallCells, spawnCells, startCells,
            List.filterMap_cons]
          simp [lastStart]
        · simp [scanCell, h1, h2, h3, wallCells, spawnCells, startCells,
            List.filterMap_cons]

lemma scanRowsFrom_spec :
    ∀ (rows : List (List Char)) (r : ℕ) (acc : MazeBuild),
      scanRowsFrom r rows acc =
        { walls := acc.walls ++ (wallCells (rowsCellsFrom r rows)).map
            (fun rc => ⟨tileCenter rc.1 rc.2, ⟨TILE, TILE⟩⟩),
          spawnPoints := acc.spawnPoints ++
            (spawnCells (rowsCellsFrom r rows)).map
              (fun rc => tileCenter rc.1 rc.2),
          playerStart := lastStart ((startCells (rowsCellsFrom r rows)).map
            (fun rc => tileCenter rc.1 rc.2)) acc.playerStart } := by
  intro rows
  induction rows with
  | nil =>
    intro r acc
    simp [scanRowsFrom, rowsCellsFrom, wallCells, spawnCells, startCells,
      lastStart]
  | cons line rest ih =>
    intro r acc
    simp only [scanRowsFrom, rowsCellsFrom]
    rw [ih, scanRowFrom_spec]
    simp [wallCells, spawnCells, startCells, List.filterMap_append,
      lastStart_append]

/-- Claim C6, amended: maze parsing produces one wall per `'#'` cell at the
tile's world-space center, the spawn points of the `'S'` cells in row-major
scan order, a player start equal to the last `'P'` (fallback when absent),
and fails exactly when some row's length differs from the first row's; on
the lone row `"#P  S#"` it yields walls at columns 0 and 5, the player
start at column 1, and one spawn point at column 4 (the `'S'` is the fifth
character, not, as claimed, at column 3). -/
theorem claim_C6 (maze : List String) :
    ((build_maze maze).isOk = true ↔
      ∀ row ∈ maze, row.length = (maze.headD "").length) ∧
    (∀ m, build_maze maze = Except.ok m →
      m.walls = (wallCells (gridCells maze)).map
          (fun rc => ⟨tileCenter rc.1 rc.2, ⟨TILE, TILE⟩⟩) ∧
      m.spawnPoints = (spawnCells (gridCells maze)).map
          (fun rc => tileCenter rc.1 rc.2) ∧
      m.playerStart = lastStart ((startCells (gridCells maze)).map
          (fun rc => tileCenter rc.1 rc.2)) fallbackStart) ∧
    build_maze ["#P  S#"] = Except.ok
      { walls := [⟨⟨-380, 280⟩, ⟨40, 40⟩⟩, ⟨⟨-180, 280⟩, ⟨40, 40⟩⟩],
        spawnPoints := [⟨-220, 280⟩],
        playerStart := ⟨-340, 280⟩ } := by
  refine ⟨?_, ?_, ?_⟩
  · by_cases h : maze.all
        (fun row => row.length == (maze.headD "").length) = true
    · rw [build_maze, if_pos h]
      refine iff_of_true rfl ?_
      simp only [List.all_eq_true, beq_iff_eq] at h
      simpa using h
    · rw [build_maze, if_neg h]
      refine iff_of_false (by decide) fun hall => h ?_
      exact List.all_eq_true.mpr fun x hx => beq_iff_eq.mpr (by simpa using hall x hx)
  · intro m hm
    by_cases h : maze.all
        (fun row => row.length == (maze.headD "").length) = true
    · rw [build_maze, if_pos h] at hm
      have hm' := (Except.ok.injEq _ _).mp hm
      rw [← hm', scanRowsFrom_spec]
      exact ⟨by simp [gridCells], by simp [gridCells], by simp [gridCells]⟩
    · rw [build_maze, if_neg h] at hm
      exact absurd hm (by simp)
  · rw [build_maze, if_pos (by decide), scanRowsFrom_spec]
    have hw : wallCells (rowsCellsFrom 0 (["#P  S#"].map String.toList))
        = [(0, 0), (0, 5)] := by decide
    have hs : spawnCells (rowsCellsFrom 0 (["#P  S#"].map String.toList))
        = [(0, 4)] := by decide
    have hp : startCells (rowsCellsFrom 0 (["#P  S#"].map String.toList))
        = [(0, 1)] := by decide
    rw [hw, hs, hp]
    simp only [List.map_cons, List.map_nil, List.nil_append, lastStart]
    norm_num [tileCenter, origin, fallbackStart, ARENA_W, ARENA_H, TILE,
      MazeBuild.mk.injEq, Vec2.mk.injEq, WallEnt.mk.injEq]

/-- Witness for C6: the single-row example parses successfully and its
last-'P' start is the tile center of column 1. -/
theorem claim_C6_witness :
    (build_maze ["#P  S#"]).isOk = true ∧
    lastStart ((startCells (gridCells ["#P  S#"])).map
        (fun rc => tileCenter rc.1 rc.2)) fallbackStart
      = ⟨-340, 280⟩ := by
  have h := claim_C6 ["#P  S#"]
  have h3 := h.2.2
  refine ⟨by rw [h3]; rfl, ?_⟩
  have h2 := h.2.1 _ h3
  rw [← h2.2.2]

/-- Counterexample for C6 as stated: in the lone row `"#P  S#"` the `'S'`
is at column 4, so the single spawn point is the center of column 4,
`(-220, 280)`, and not the center of column 3, `(-260, 280)`, which the
claim asserts. -/
theorem claim_C6_counterexample :
    spawnCells (gridCells ["#P  S#"]) = [(0, 4)] ∧
    (0, 4) ≠ ((0 : ℕ), (3 : ℕ)) ∧
    build_maze ["#P  S#"] = Except.ok
      { walls := [⟨⟨-380, 280⟩, ⟨40, 40⟩⟩, ⟨⟨-180, 280⟩, ⟨40, 40⟩⟩],
        spawnPoints := [⟨-220, 280⟩],
        playerStart := ⟨-340, 280⟩ } ∧
    tileCenter 0 3 = ⟨-260, 280⟩ ∧
    (⟨-220, 280⟩ : Vec2) ≠ ⟨-260, 280⟩ := by
  refine ⟨by decide, by decide, ?_, ?_, ?_⟩
  · rw [build_maze, if_pos (by decide), scanRowsFrom_spec]
    have hw : wallCells (rowsCellsFrom 0 (["#P  S#"].map String.toList))
        = [(0, 0), (0, 5)] := by decide
    have hs : spawnCells (rowsCellsFrom 0 (["#P  S#"].map String.toList))
        = [(0, 4)] := by decide
    have hp : startCells (rowsCellsFrom 0 (["#P  S#"].map String.toList))
        = [(0, 1)] := by decide
    rw [hw, hs, hp]
    simp only [List.map_cons, List.map_nil, List.nil_append, lastStart]
    norm_num [tileCenter, origin, fallbackStart, ARENA_W, ARENA_H, TILE,
      MazeBuild.mk.injEq, Vec2.mk.injEq, WallEnt.mk.injEq]
  · norm_num [tileCenter, origin, ARENA_W, ARENA_H, TILE, Vec2.mk.injEq]
  · norm_num [Vec2.mk.injEq]

/-- `SpawnPoints` resource (main.rs:51-55). -/
structure SpawnPoints where
  points : List Vec2
  next : ℕ
deriving DecidableEq, Repr

/-- The simulation world: entity collections in query iteration order, the
two timer resources (elapsed seconds; `reset()` zeroes them), and the
optional `SpawnPoints` / `PlayerStart` resources. -/
structure World where
  players : List PlayerEnt
  enemies : List EnemyEnt
  walls : List WallEnt
  bullets : List BulletEnt
  cooldownElapsed : ℚ
  spawnTimerElapsed : ℚ
  spawnPoints : Option SpawnPoints
  playerStart : Option Vec2
deriving DecidableEq, Repr

/-- `on_restart_cleanup` (main.rs:63-84): when a `RestartEvent` was read,
despawn every player, enemy, wall and bullet and reset both timers. -/
def on_restart_cleanup (triggered : Bool) (w : World) : World :=
  if triggered then
    { w with players := [], enemies := [], walls := [], bullets := [],
             cooldownElapsed := 0, spawnTimerElapsed := 0 }
  else w

/-- `on_restart_build_maze` (main.rs:86-91) running `build_maze`
(main.rs:211-212): spawn the maze walls and insert fresh `SpawnPoints`
(cursor 0) and `PlayerStart` resources; the row-width `assert!` panic is
the `none` case. -/
def on_restart_build_maze (triggered : Bool) (w : World) : Option World :=
  if triggered then
    match build_maze MAZE with
    | Except.ok m =>
      some { w with walls := w.walls ++ m.walls,
                    spawnPoints := some ⟨m.spawnPoints, 0⟩,
                    playerStart := some m.playerStart }
    | Except.error _ => none
  else some w

/-- `spawn_player` (main.rs:215-228): no-op when the `PlayerStart` resource
is absent, else spawn the player at the stored start. -/
def spawn_player (w : World) : World :=
  match w.playerStart with
  | some start => { w with players := w.players ++ [⟨start, PLAYER_SIZE⟩] }
  | none => w

/-- `on_restart_spawn_player` (main.rs:93-102). -/
def on_restart_spawn_player (triggered : Bool) (w : World) : World :=
  if triggered then spawn_player w else w

/-- The chained restart sequence
`(on_restart_cleanup, on_restart_build_maze, on_restart_spawn_player).chain()`
(main.rs:157-160). -/
def restartChain (triggered : Bool) (w : World) : Option World :=
  Option.map (on_restart_spawn_player triggered)
    (on_restart_build_maze triggered (on_restart_cleanup triggered w))

lemma wallCells_length (cells : List (ℕ × ℕ × Char)) :
    (wallCells cells).length
      = (cells.filter (fun t => t.2.2 == '#')).length := by
  induction cells with
  | nil => rfl
  | cons t rest ih =>
    by_cases h : t.2.2 = '#'
    · simp only [wallCells, List.filterMap_cons, List.filter_cons, if_pos h,
        beq_iff_eq, h, if_true, List.length_cons]
      simp only [wallCells] at ih
      simp [ih]
    · simp only [wallCells, List.filterMap_cons, List.filter_cons, if_neg h,
        beq_iff_eq, h, if_false]
      simp only [wallCells] at ih
      simp [h, ih]

/-- The successful result of `build_maze` on the fixed `MAZE` grid. -/
def mazeBuildMAZE : MazeBuild :=
  scanRowsFrom 0 (MAZE.map String.toList)
    { walls := [], spawnPoints := [], playerStart := fallbackStart }

lemma build_maze_MAZE : build_maze MAZE = Except.ok mazeBuildMAZE := by
  rw [build_maze, if_pos (by decide)]
  rfl

lemma mazeBuildMAZE_playerStart : mazeBuildMAZE.playerStart = tileCenter 1 1 := by
  rw [mazeBuildMAZE, scanRowsFrom_spec]
  have hp : startCells (rowsCellsFrom 0 (MAZE.map String.toList))
      = [(1, 1)] := by decide
  simp [hp, lastStart]

lemma mazeBuildMAZE_walls_length :
    mazeBuildMAZE.walls.length = wallCellCount MAZE := by
  rw [mazeBuildMAZE, scanRowsFrom_spec]
  simp [wallCellCount, gridCells, wallCells_length]

/-- Claim C4: an enemy-faction bullet overlapping the player despawns that
bullet and sends exactly one restart event; restarts are sent only in that
situation; and the completed restart chain leaves 0 enemies, 0 bullets, one
wall per `'#'` cell of `MAZE`, the player at the maze start `(-340, 240)`,
and both timers reset. -/
theorem claim_C4 :
    (∀ (b : BulletEnt) (enemies : List EnemyEnt) (p : PlayerEnt),
      b.faction = Faction.Enemy →
      bulletHitsOne b enemies (some p) =
        (if aabb_overlap b.pos (Vec2.half b.size) p.pos (Vec2.half p.size)
         then ([Cmd.despawnBullet b.id], 1) else ([], 0))) ∧
    (∀ (b : BulletEnt) (enemies : List EnemyEnt)
        (player : Option PlayerEnt),
      0 < (bulletHitsOne b enemies player).2 →
      b.faction = Faction.Enemy ∧
      ∃ p, player = some p ∧
        aabb_overlap b.pos (Vec2.half b.size) p.pos (Vec2.half p.size)
          = true) ∧
    (∀ w : World, ∃ w' : World, restartChain true w = some w' ∧
      w'.enemies = [] ∧ w'.bullets = [] ∧
      w'.walls.length = wallCellCount MAZE ∧
      w'.players = [⟨tileCenter 1 1, PLAYER_SIZE⟩] ∧
      tileCenter 1 1 = ⟨-340, 240⟩ ∧
      w'.cooldownElapsed = 0 ∧ w'.spawnTimerElapsed = 0) := by
  refine ⟨?_, ?_, ?_⟩
  · intro b enemies p hfac
    simp [bulletHitsOne, hfac]
  · intro b enemies player hpos
    cases hfac : b.faction with
    | Player =>
      exfalso
      rcases hfind : firstOverlapEnemy b.pos (Vec2.half b.size) enemies with
        _ | e <;>
        simp [bulletHitsOne, hfac, hfind] at hpos
    | Enemy =>
      refine ⟨rfl, ?_⟩
      cases player with
      | none => simp [bulletHitsOne, hfac] at hpos
      | some p =>
        by_cases hov : aabb_overlap b.pos (Vec2.half b.size) p.pos
            (Vec2.half p.size) = true
        · exact ⟨p, rfl, hov⟩
        · simp [bulletHitsOne, hfac, hov] at hpos
  · intro w
    refine ⟨{ players := [⟨mazeBuildMAZE.playerStart, PLAYER_SIZE⟩],
              enemies := [], walls := mazeBuildMAZE.walls, bullets := [],
              cooldownElapsed := 0, spawnTimerElapsed := 0,
              spawnPoints := some ⟨mazeBuildMAZE.spawnPoints, 0⟩,
              playerStart := some mazeBuildMAZE.playerStart },
            ?_, rfl, rfl, ?_, ?_, ?_, rfl, rfl⟩
    · simp [restartChain, on_restart_cleanup, on_restart_build_maze,
        build_maze_MAZE, on_restart_spawn_player, spawn_player]
    · exact mazeBuildMAZE_walls_length
    · rw [mazeBuildMAZE_playerStart]
    · norm_num [tileCenter, origin, ARENA_W, ARENA_H, TILE, Vec2.mk.injEq]

/-- Witness for C4: a concrete enemy bullet on top of the player sends the
restart, and the restart chain from a concrete dirty world ends with no
enemies and no bullets. -/
theorem claim_C4_witness :
    bulletHitsOne ⟨3, ⟨0, 0⟩, BULLET_SIZE, ⟨0, 0⟩, Faction.Enemy⟩ []
        (some ⟨⟨0, 0⟩, PLAYER_SIZE⟩) = ([Cmd.despawnBullet 3], 1) ∧
    ∃ w', restartChain true
        ⟨[], [⟨9, ⟨1, 2⟩, ENEMY_SIZE⟩], [],
          [⟨4, ⟨3, 4⟩, BULLET_SIZE, ⟨0, 0⟩, Faction.Player⟩], 5, 7,
          none, none⟩ = some w' ∧
      w'.enemies = [] ∧ w'.bullets = [] := by
  constructor
  · have hov : aabb_overlap (⟨0, 0⟩ : Vec2) (Vec2.half BULLET_SIZE)
        (⟨0, 0⟩ : Vec2) (Vec2.half PLAYER_SIZE) = true := by
      norm_num [aabb_overlap, Vec2.half, BULLET_SIZE, PLAYER_SIZE]
    have h := claim_C4.1 ⟨3, ⟨0, 0⟩, BULLET_SIZE, ⟨0, 0⟩, Faction.Enemy⟩ []
      ⟨⟨0, 0⟩, PLAYER_SIZE⟩ rfl
    rw [h, if_pos hov]
  · obtain ⟨w', hw', h1, h2, -⟩ := claim_C4.2.2
      ⟨[], [⟨9, ⟨1, 2⟩, ENEMY_SIZE⟩], [],
        [⟨4, ⟨3, 4⟩, BULLET_SIZE, ⟨0, 0⟩, Faction.Player⟩], 5, 7,
        none, none⟩
    exact ⟨w', hw', h1, h2⟩

lemma cellsFrom_char_mem (r : ℕ) :
    ∀ (line : List Char) (c : ℕ), ∀ t ∈ cellsFrom r c line, t.2.2 ∈ line := by
  intro line
  induction line with
  | nil => intro c t ht; simp [cellsFrom] at ht
  | cons ch rest ih =>
    intro c t ht
    rcases List.mem_cons.mp ht with rfl | ht'
    · exact List.mem_cons_self _ _
    · exact List.mem_cons_of_mem _ (ih (c + 1) t ht')

lemma rowsCellsFrom_char_mem :
    ∀ (rows : List (List Char)) (r : ℕ), ∀ t ∈ rowsCellsFrom r rows,
      ∃ line ∈ rows, t.2.2 ∈ line := by
  intro rows
  induction rows with
  | nil => intro r t ht; simp [rowsCellsFrom] at ht
  | cons line rest ih =>
    intro r t ht
    rcases List.mem_append.mp ht with h1 | h2
    · exact ⟨line, List.mem_cons_self _ _, cellsFrom_char_mem r line 0 t h1⟩
    · obtain ⟨l, hl, hc⟩ := ih (r + 1) t h2
      exact ⟨l, List.mem_cons_of_mem _ hl, hc⟩

/-- Claim C10: when the grid contains no `'P'` marker, maze building still
succeeds, the player start silently defaults to the fallback
`(0, -0.35 * ARENA_H) = (0, -210)`, and the player is spawned there; a
missing start marker is never an error. -/
theorem claim_C10 (maze : List String)
    (hlen : ∀ row ∈ maze, row.length = (maze.headD "").length)
    (hnoP : ∀ row ∈ maze, ∀ ch ∈ row.toList, ch ≠ 'P') :
    ∃ m, build_maze maze = Except.ok m ∧
      m.playerStart = ⟨0, -210⟩ ∧
      fallbackStart = ⟨0, -210⟩ ∧
      ∀ w : World, w.playerStart = some m.playerStart →
        (spawn_player w).players
          = w.players ++ [⟨⟨0, -210⟩, PLAYER_SIZE⟩] := by
  have hall : maze.all (fun row => row.length == (maze.headD "").length)
      = true :=
    List.all_eq_true.mpr fun x hx => beq_iff_eq.mpr (hlen x hx)
  have hfall : fallbackStart = (⟨0, -210⟩ : Vec2) := by
    norm_num [fallbackStart, ARENA_H, Vec2.mk.injEq]
  have hstarts : startCells (rowsCellsFrom 0 (maze.map String.toList))
      = [] := by
    rw [startCells, List.filterMap_eq_nil_iff]
    intro t ht
    obtain ⟨line, hline, hch⟩ :=
      rowsCellsFrom_char_mem (maze.map String.toList) 0 t ht
    obtain ⟨row, hrow, rfl⟩ := List.mem_map.mp hline
    exact if_neg (hnoP row hrow t.2.2 hch)
  refine ⟨_, by rw [build_maze, if_pos hall], ?_, hfall, ?_⟩
  · rw [scanRowsFrom_spec]
    simp [hstarts, lastStart, hfall]
  · intro w hw
    rw [scanRowsFrom_spec] at hw
    simp only [hstarts, List.map_nil, lastStart] at hw
    simp [spawn_player, hw, hfall]

/-- Witness for C10: a small 2×2 grid without a `'P'` parses successfully
with the fallback player start `(0, -210)`. -/
theorem claim_C10_witness :
    ∃ m, build_maze ["##", "#S"] = Except.ok m ∧
      m.playerStart = ⟨0, -210⟩ := by
  obtain ⟨m, hok, hstart, -, -⟩ :=
    claim_C10 ["##", "#S"] (by decide) (by decide)
  exact ⟨m, hok, hstart⟩

/-- Per-bullet decision of `bullet_wall_cull` (main.rs:379-399): cull when
already overlapping a wall; otherwise, when moving (`speed > 0.0`), cull
when the position advanced along the normalized velocity by
`speed * dt / 6 + 0.5` (sub-step travel plus safety margin) would overlap a
wall.  The `f32` call `v.length()` is irrational in general, so it is
passed in as `speed`; the theorems constrain it by `0 ≤ speed` and
`speed * speed = v.x * v.x + v.y * v.y`. -/
def bulletCullOne (pos half vel : Vec2) (speed dt : ℚ)
    (walls : List WallEnt) : Bool :=
  if overlaps_any pos half walls then true
  else if 0 < speed then
    overlaps_any
      ⟨pos.x + vel.x / speed * (speed * dt / 6 + 1 / 2),
       pos.y + vel.y / speed * (speed * dt / 6 + 1 / 2)⟩ half walls
  else false

/-- `bullet_wall_cull` (main.rs:371-401): the bullets surviving the pass,
with `spd` standing for the `f32` `Vec2::length` function. -/
def bullet_wall_cull (spd : Vec2 → ℚ) (bullets : List BulletEnt) (dt : ℚ)
    (walls : List WallEnt) : List BulletEnt :=
  bullets.filter
    (fun b =>
      !(bulletCullOne b.pos (Vec2.half b.size) b.vel (spd b.vel) dt walls))

/-- Claim C5: a bullet overlapping a wall is despawned by the wall-cull
pass, a moving bullet whose position advanced along its normalized velocity
by `(speed * dt) / 6 + 0.5` would overlap a wall is also despawned, and all
other bullets survive the pass. -/
theorem claim_C5 (spd : Vec2 → ℚ) (dt : ℚ) (walls : List WallEnt)
    (bullets : List BulletEnt) (b : BulletEnt) (hmem : b ∈ bullets)
    (hnn : 0 ≤ spd b.vel)
    (hsq : spd b.vel * spd b.vel
      = b.vel.x * b.vel.x + b.vel.y * b.vel.y) :
    (b ∉ bullet_wall_cull spd bullets dt walls ↔
      overlaps_any b.pos (Vec2.half b.size) walls = true ∨
      (b.vel ≠ ⟨0, 0⟩ ∧
        overlaps_any
          ⟨b.pos.x + b.vel.x / spd b.vel * (spd b.vel * dt / 6 + 1 / 2),
           b.pos.y + b.vel.y / spd b.vel * (spd b.vel * dt / 6 + 1 / 2)⟩
          (Vec2.half b.size) walls = true)) := by
  have hvel : b.vel ≠ (⟨0, 0⟩ : Vec2) ↔ 0 < spd b.vel := by
    constructor
    · intro hne
      rcases lt_or_eq_of_le hnn with h | h
      · exact h
      · exfalso
        apply hne
        have h0 : b.vel.x * b.vel.x + b.vel.y * b.vel.y = 0 := by
          rw [← hsq, ← h, mul_zero]
        have hx : b.vel.x = 0 := by nlinarith [mul_self_nonneg b.vel.x, mul_self_nonneg b.vel.y]
        have hy : b.vel.y = 0 := by nlinarith [mul_self_nonneg b.vel.x, mul_self_nonneg b.vel.y]
        cases hb : b.vel with
        | mk vx vy =>
          rw [hb] at hx hy
          simp only [Vec2.mk.injEq]
          exact ⟨hx, hy⟩
    · intro hpos hzero
      rw [hzero] at hsq hpos
      norm_num at hsq
      rw [hsq] at hpos
      exact lt_irrefl 0 hpos
  have hmemiff : b ∉ bullet_wall_cull spd bullets dt walls ↔
      bulletCullOne b.pos (Vec2.half b.size) b.vel (spd b.vel) dt walls
        = true := by
    rw [bullet_wall_cull]
    constructor
    · intro hnot
      by_contra hcull
      apply hnot
      apply List.mem_filter.mpr
      refine ⟨hmem, ?_⟩
      simp [Bool.eq_false_iff.mpr hcull]
    · intro hcull hin
      have := (List.mem_filter.mp hin).2
      rw [hcull] at this
      simp at this
  rw [hmemiff, bulletCullOne]
  by_cases hov : overlaps_any b.pos (Vec2.half b.size) walls = true
  · simp [hov]
  · rw [if_neg hov]
    by_cases hpos : 0 < spd b.vel
    · rw [if_pos hpos]
      constructor
      · intro h
        exact Or.inr ⟨hvel.mpr hpos, h⟩
      · intro h
        rcases h with h | h
        · exact absurd h hov
        · exact h.2
    · rw [if_neg hpos]
      constructor
      · intro h
        exact absurd h (by simp)
      · intro h
        rcases h with h | h
        · exact absurd h hov
        · exact absurd (hvel.mp h.1) hpos

/-- Witness for C5: a bullet just left of the central wall tile, moving
with velocity `(3, 4)` (speed 5), does not yet overlap, but its look-ahead
position does, so the pass despawns it. -/
theorem claim_C5_witness :
    (⟨0, ⟨-116 / 5, 0⟩, BULLET_SIZE, ⟨3, 4⟩, Faction.Player⟩ : BulletEnt) ∉
      bullet_wall_cull (fun _ => 5)
        [⟨0, ⟨-116 / 5, 0⟩, BULLET_SIZE, ⟨3, 4⟩, Faction.Player⟩]
        (1 / 10) [⟨⟨0, 0⟩, ⟨40, 40⟩⟩] := by
  apply (claim_C5 (fun _ => 5) (1 / 10) [⟨⟨0, 0⟩, ⟨40, 40⟩⟩]
      [⟨0, ⟨-116 / 5, 0⟩, BULLET_SIZE, ⟨3, 4⟩, Faction.Player⟩]
      ⟨0, ⟨-116 / 5, 0⟩, BULLET_SIZE, ⟨3, 4⟩, Faction.Player⟩
      (by simp) (by norm_num) (by norm_num)).mpr
  refine Or.inr ⟨by simp [Vec2.mk.injEq], ?_⟩
  norm_num [overlaps_any, aabb_overlap, Vec2.half, BULLET_SIZE, abs_le]

/-- `enemy_spawner` (main.rs:445-474) after the timer tick: skip when the
repeating timer has not finished this frame, when the live enemy count is
at or above `ENEMY_CAP`, or when the spawn-point list is empty; otherwise
spawn one enemy at `points[next % len]` and set
`next := (next + 1) % len`.  Returns the spawned position, if any, and the
updated `SpawnPoints` resource. -/
def enemy_spawner (timerFinished : Bool) (enemyCount : ℕ)
    (spawns : SpawnPoints) : Option Vec2 × SpawnPoints :=
  if !timerFinished then (none, spawns)
  else if ENEMY_CAP ≤ enemyCount then (none, spawns)
  else if spawns.points.isEmpty then (none, spawns)
  else
    (some (spawns.points.getD (spawns.next % spawns.points.length) ⟨0, 0⟩),
     { spawns with next := (spawns.next + 1) % spawns.points.length })

/-- Spawn-relevant world state for the cap invariant: the live enemy count
and the spawn-point registry. -/
structure SpawnSim where
  enemyCount : ℕ
  spawns : SpawnPoints
deriving DecidableEq, Repr

/-- One frame of spawn dynamics: run `enemy_spawner` with this frame's
timer-expiry flag, then remove the `kills` enemies despawned by the other
passes (`bullet_hits`, restart cleanup), which never add enemies. -/
def spawnFrame (finished : Bool) (kills : ℕ) (s : SpawnSim) : SpawnSim :=
  { enemyCount :=
      (s.enemyCount +
        (if (enemy_spawner finished s.enemyCount s.spawns).1.isSome
         then 1 else 0)) - kills,
    spawns := (enemy_spawner finished s.enemyCount s.spawns).2 }

/-- Any sequence of frames, each with a timer flag and a kill count. -/
def runFrames (inputs : List (Bool × ℕ)) (s : SpawnSim) : SpawnSim :=
  inputs.foldl (fun s i => spawnFrame i.1 i.2 s) s

lemma enemy_spawner_spawns_lt (finished : Bool) (cnt : ℕ)
    (sp : SpawnPoints) :
    ((enemy_spawner finished cnt sp).1.isSome = true) → cnt < ENEMY_CAP := by
  intro h
  cases finished with
  | false => simp [enemy_spawner] at h
  | true =>
    by_cases hcap : ENEMY_CAP ≤ cnt
    · simp [enemy_spawner, hcap] at h
    · omega

lemma spawnFrame_le (finished : Bool) (kills : ℕ) (s : SpawnSim)
    (h : s.enemyCount ≤ ENEMY_CAP) :
    (spawnFrame finished kills s).enemyCount ≤ ENEMY_CAP := by
  rw [spawnFrame]
  by_cases hs : (enemy_spawner finished s.enemyCount s.spawns).1.isSome
      = true
  · have hlt := enemy_spawner_spawns_lt finished s.enemyCount s.spawns hs
    simp only [hs, if_true]
    show (s.enemyCount + 1) - kills ≤ ENEMY_CAP
    omega
  · have hs' : (enemy_spawner finished s.enemyCount s.spawns).1.isSome
        = false := by simpa using hs
    simp only [hs', Bool.false_eq_true, if_false]
    show (s.enemyCount + 0) - kills ≤ ENEMY_CAP
    omega

/-- Claim C7: starting at or below the cap, the live enemy count never
exceeds `ENEMY_CAP = 24` over any sequence of frames; the spawner yields at
most one enemy per expiry and skips entirely at the cap or with no spawn
points. -/
theorem claim_C7 (inputs : List (Bool × ℕ)) (s : SpawnSim)
    (hinv : s.enemyCount ≤ ENEMY_CAP) :
    (runFrames inputs s).enemyCount ≤ ENEMY_CAP ∧
    (∀ (finished : Bool) (cnt : ℕ) (sp : SpawnPoints),
      ENEMY_CAP ≤ cnt → (enemy_spawner finished cnt sp).1 = none) ∧
    (∀ (finished : Bool) (cnt : ℕ) (sp : SpawnPoints),
      sp.points = [] → (enemy_spawner finished cnt sp).1 = none) := by
  refine ⟨?_, ?_, ?_⟩
  · induction inputs generalizing s with
    | nil => exact hinv
    | cons i rest ih =>
      exact ih (spawnFrame i.1 i.2 s) (spawnFrame_le i.1 i.2 s hinv)
  · intro finished cnt sp hcap
    cases finished with
    | false => simp [enemy_spawner]
    | true => simp [enemy_spawner, hcap]
  · intro finished cnt sp hpts
    cases finished with
    | false => simp [enemy_spawner]
    | true =>
      by_cases hcap : ENEMY_CAP ≤ cnt
      · simp [enemy_spawner, hcap]
      · simp [enemy_spawner, hcap, hpts]

/-- Witness for C7: two timer expiries from an empty world stay far below
the cap. -/
theorem claim_C7_witness :
    (runFrames [(true, 0), (true, 0), (false, 1)]
      ⟨0, ⟨[⟨1, 2⟩], 0⟩⟩).enemyCount ≤ ENEMY_CAP :=
  (claim_C7 [(true, 0), (true, 0), (false, 1)] ⟨0, ⟨[⟨1, 2⟩], 0⟩⟩
    (by norm_num [ENEMY_CAP])).1

/-- `enemy_spawner` folded over a list of attempts (per attempt: the timer
flag and the live enemy count seen by that attempt), collecting the spawned
positions in order. -/
def runSpawnAttempts : List (Bool × ℕ) → SpawnPoints →
    List Vec2 × SpawnPoints
  | [], spawns => ([], spawns)
  | a :: rest, spawns =>
    match enemy_spawner a.1 a.2 spawns with
    | (some p, spawns2) =>
      ((p :: (runSpawnAttempts rest spawns2).1),
       (runSpawnAttempts rest spawns2).2)
    | (none, spawns2) => runSpawnAttempts rest spawns2

/-- Does an attempt pass all three spawner gates? -/
def spawnSucceeds (a : Bool × ℕ) (pts : List Vec2) : Bool :=
  a.1 && decide (a.2 < ENEMY_CAP) && !pts.isEmpty

/-- Number of attempts passing the spawner gates. -/
def successCount (attempts : List (Bool × ℕ)) (pts : List Vec2) : ℕ :=
  (attempts.filter (fun a => spawnSucceeds a pts)).length

lemma enemy_spawner_success (a : Bool × ℕ) (pts : List Vec2) (s : ℕ)
    (h : spawnSucceeds a pts = true) :
    enemy_spawner a.1 a.2 ⟨pts, s⟩ =
      (some (pts.getD (s % pts.length) ⟨0, 0⟩),
       ⟨pts, (s + 1) % pts.length⟩) := by
  simp only [spawnSucceeds, Bool.and_eq_true, decide_eq_true_eq,
    Bool.not_eq_true', List.isEmpty_eq_false] at h
  obtain ⟨⟨hfin, hcap⟩, hne⟩ := h
  rw [enemy_spawner, hfin]
  simp only [Bool.not_true, Bool.false_eq_true, if_false]
  rw [if_neg (by omega)]
  rw [if_neg (by simp [hne])]

lemma enemy_spawner_skip (a : Bool × ℕ) (pts : List Vec2) (s : ℕ)
    (h : spawnSucceeds a pts = false) :
    enemy_spawner a.1 a.2 ⟨pts, s⟩ = (none, ⟨pts, s⟩) := by
  simp only [spawnSucceeds, Bool.and_eq_false_iff] at h
  rcases h with (hfin | hcap) | hne
  · simp [enemy_spawner, hfin]
  · have hcap' : ENEMY_CAP ≤ a.2 := by
      simp only [decide_eq_false_iff_not] at hcap
      omega
    cases hf : a.1 <;> simp [enemy_spawner, hcap']
  · have hne' : pts.isEmpty = true := by simpa using hne
    cases hf : a.1 <;> simp [enemy_spawner, hne']

lemma runSpawnAttempts_spec (pts : List Vec2) :
    ∀ (attempts : List (Bool × ℕ)) (s : ℕ),
      (runSpawnAttempts attempts ⟨pts, s⟩).1 =
        (List.range (successCount attempts pts)).map
          (fun k => pts.getD ((s + k) % pts.length) ⟨0, 0⟩) := by
  intro attempts
  induction attempts with
  | nil => intro s; simp [runSpawnAttempts, successCount]
  | cons a rest ih =>
    intro s
    by_cases h : spawnSucceeds a pts = true
    · have hcount : successCount (a :: rest) pts
          = successCount rest pts + 1 := by
        simp [successCount, List.filter_cons, h]
      rw [runSpawnAttempts, enemy_spawner_success a pts s h]
      dsimp only
      rw [ih ((s + 1) % pts.length), hcount, List.range_succ_eq_map,
        List.map_cons, List.map_map]
      congr 1
      apply List.map_congr_left
      intro k _
      simp only [Function.comp_apply]
      rw [Nat.mod_add_mod]
      have hsk : s + 1 + k = s + k.succ := by omega
      rw [hsk]
    · have h' : spawnSucceeds a pts = false := Bool.eq_false_iff.mpr h
      have hcount : successCount (a :: rest) pts
          = successCount rest pts := by
        simp [successCount, List.filter_cons, h']
      rw [runSpawnAttempts, enemy_spawner_skip a pts s h']
      dsimp only
      rw [hcount]
      exact ih s

/-- Claim C8: with the cursor starting at 0, the k-th successful spawn uses
spawn point `k mod n`; a skipped attempt leaves the registry untouched and
a successful one advances the cursor by one modulo `n`. -/
theorem claim_C8 (pts : List Vec2) (attempts : List (Bool × ℕ)) :
    (runSpawnAttempts attempts ⟨pts, 0⟩).1 =
      (List.range (successCount attempts pts)).map
        (fun k => pts.getD (k % pts.length) ⟨0, 0⟩) ∧
    (∀ (a : Bool × ℕ) (s : ℕ), spawnSucceeds a pts = false →
      enemy_spawner a.1 a.2 ⟨pts, s⟩ = (none, ⟨pts, s⟩)) ∧
    (∀ (a : Bool × ℕ) (s : ℕ), spawnSucceeds a pts = true →
      (enemy_spawner a.1 a.2 ⟨pts, s⟩).2 = ⟨pts, (s + 1) % pts.length⟩) := by
  refine ⟨?_, fun a s h => enemy_spawner_skip a pts s h, ?_⟩
  · rw [runSpawnAttempts_spec pts attempts 0]
    simp
  · intro a s h
    rw [enemy_spawner_success a pts s h]

/-- Witness for C8: spawn points `[p0, p1, p2]` with a mix of failed
attempts (timer not finished, at cap) produce the cycle
`p0, p1, p2, p0` over four successful spawns. -/
theorem claim_C8_witness :
    (runSpawnAttempts
        [(true, 0), (false, 0), (true, 30), (true, 1), (true, 2), (true, 3)]
        ⟨[⟨1, 1⟩, ⟨2, 2⟩, ⟨3, 3⟩], 0⟩).1
      = [⟨1, 1⟩, ⟨2, 2⟩, ⟨3, 3⟩, ⟨1, 1⟩] := by
  rw [(claim_C8 [⟨1, 1⟩, ⟨2, 2⟩, ⟨3, 3⟩]
    [(true, 0), (false, 0), (true, 30), (true, 1), (true, 2), (true, 3)]).1]
  decide

/-- The systems registered by `main` (main.rs:125-162). -/
inductive SystemId where
  | setupCamera
  | buildMazeSys
  | spawnPlayerSys
  | playerInput
  | handleFire
  | enemyHandleFire
  | moveWithCollisionsSys
  | bulletHitsSys
  | bulletWallCullSys
  | enemyAiSeekPlayer
  | enemySpawnerSys
  | clampToArena
  | onRestartCleanupSys
  | onRestartBuildMazeSys
  | onRestartSpawnPlayerSys
deriving DecidableEq, Repr

/-- A tuple of systems passed to one `add_systems` call, with whether
`.chain()` was applied to it. -/
structure SystemTuple where
  systems : List SystemId
  chained : Bool
deriving DecidableEq, Repr

/-- `add_systems(Startup, (...).chain())` (main.rs:142). -/
def startupTuple : SystemTuple :=
  ⟨[SystemId.setupCamera, SystemId.buildMazeSys, SystemId.spawnPlayerSys],
   true⟩

/-- The main `add_systems(Update, (...))` tuple (main.rs:143-156): note the
source applies no `.chain()` and no `.before`/`.after` to it. -/
def updateMainTuple : SystemTuple :=
  ⟨[SystemId.playerInput, SystemId.handleFire, SystemId.enemyHandleFire,
    SystemId.moveWithCollisionsSys, SystemId.bulletHitsSys,
    SystemId.bulletWallCullSys, SystemId.enemyAiSeekPlayer,
    SystemId.enemySpawnerSys, SystemId.clampToArena], false⟩

/-- `add_systems(Update, (...).chain())` for the restart systems
(main.rs:157-160). -/
def updateRestartTuple : SystemTuple :=
  ⟨[SystemId.onRestartCleanupSys, SystemId.onRestartBuildMazeSys,
    SystemId.onRestartSpawnPlayerSys], true⟩

/-- The two tuples registered in the `Update` schedule. -/
def updateTuples : List SystemTuple := [updateMainTuple, updateRestartTuple]

/-- Modelled Bevy scheduling semantics: within one `add_systems` tuple,
`a` is guaranteed to run before `b` only when the tuple is `.chain()`ed and
`a` precedes `b` in it; a plain tuple adds its systems with no ordering
constraints, so Bevy may run them in any order. -/
def orderedIn (t : SystemTuple) (a b : SystemId) : Bool :=
  t.chained && (t.systems.indexOf a < t.systems.indexOf b) &&
    t.systems.contains a && t.systems.contains b

/-- Is `a` guaranteed to run before `b` within one `Update` frame? -/
def guaranteedBefore (a b : SystemId) : Bool :=
  updateTuples.any (fun t => orderedIn t a b)

/-- Counterexample for C9 as stated: the main `Update` tuple is registered
without `.chain()`, so the schedule guarantees neither that input sampling
runs before fire/movement nor that the movement pass runs before the
bullet-enemy hit check or the bullet-wall cull. -/
theorem claim_C9_counterexample :
    updateMainTuple.chained = false ∧
    guaranteedBefore SystemId.playerInput SystemId.handleFire = false ∧
    guaranteedBefore SystemId.playerInput SystemId.moveWithCollisionsSys
      = false ∧
    guaranteedBefore SystemId.moveWithCollisionsSys SystemId.bulletHitsSys
      = false ∧
    guaranteedBefore SystemId.moveWithCollisionsSys
      SystemId.bulletWallCullSys = false := by
  decide

/-- Claim C9, amended: the per-frame passes are all registered in a single
unchained `Update` tuple, so no relative execution order is guaranteed
between any two of them (in particular not input-before-movement and not
movement-before-combat); the only chained `Update` sequence is the restart
trio cleanup → rebuild-maze → respawn-player, which is ordered. -/
theorem claim_C9 :
    updateMainTuple.chained = false ∧
    (∀ a ∈ updateMainTuple.systems, ∀ b ∈ updateMainTuple.systems,
      guaranteedBefore a b = false) ∧
    updateRestartTuple.chained = true ∧
    guaranteedBefore SystemId.onRestartCleanupSys
      SystemId.onRestartBuildMazeSys = true ∧
    guaranteedBefore SystemId.onRestartBuildMazeSys
      SystemId.onRestartSpawnPlayerSys = true := by
  refine ⟨rfl, ?_, rfl, by decide, by decide⟩
  decide

/-- Witness for C9: the movement pass has no guaranteed order against the
bullet-wall cull, while the chained restart pair is ordered. -/
theorem claim_C9_witness :
    guaranteedBefore SystemId.moveWithCollisionsSys
      SystemId.bulletWallCullSys = false :=
  claim_C9.2.1 SystemId.moveWithCollisionsSys (by decide)
    SystemId.bulletWallCullSys (by decide)

end BattleCity
